import Mathlib

/-!
Verification of the wikitext-to-statement extraction engine of a
Tolkien-encyclopedia linked-data pipeline.

The engine lives in `src/transform/value_parsing.py` and
`src/transform/build_kg.py` (with the batch driver
`src/transform/build_kg_chunked.py`).  Strings are modelled as `List Char`
(Python `str` restricted to the ASCII fragment actually exercised by the
regular expressions), and percent-escaping of titles is additionally
modelled at the UTF-8 byte level (`List Nat`) because Python's
`urllib.parse.quote` operates on encoded bytes.

Every Python regular-expression operation used by the source
(`re.sub`, `finditer`/`findall`, `re.split`) is embedded as a fueled
left-to-right scanner together with a hand-rolled matcher implementing the
exact matching semantics of the concrete pattern (all the patterns involved
are backtracking-free, as argued next to each matcher).
-/

/-- Horizontal whitespace, the character class `[ \t\r\f\v]` of
`value_parsing.strip_markup`. -/
def isHWSChar (c : Char) : Bool :=
  decide (c.toNat = 32 ∨ c.toNat = 9 ∨ c.toNat = 13 ∨ c.toNat = 12 ∨ c.toNat = 11)

/-- Python `\s` (ASCII fragment): `[ \t\n\r\f\v]`. -/
def isWSChar (c : Char) : Bool := isHWSChar c || decide (c.toNat = 10)

/-- Python `str.strip()` (ASCII-whitespace fragment). -/
def pyStrip (l : List Char) : List Char :=
  ((l.dropWhile isWSChar).reverse.dropWhile isWSChar).reverse

/-- ASCII uppercase letter. -/
def isAsciiUpper (c : Char) : Bool := decide (65 ≤ c.toNat ∧ c.toNat ≤ 90)

/-- ASCII lowercase letter. -/
def isAsciiLower (c : Char) : Bool := decide (97 ≤ c.toNat ∧ c.toNat ≤ 122)

/-- ASCII digit. -/
def isAsciiDigit (c : Char) : Bool := decide (48 ≤ c.toNat ∧ c.toNat ≤ 57)

/-- ASCII letter. -/
def isAsciiAlpha (c : Char) : Bool := isAsciiUpper c || isAsciiLower c

/-- ASCII letter or digit. -/
def isAsciiAlphaNum (c : Char) : Bool := isAsciiAlpha c || isAsciiDigit c

/-- Python `str.lower()` (ASCII fragment): map A-Z to a-z. -/
def lowerCh (c : Char) : Char :=
  if 65 ≤ c.toNat ∧ c.toNat ≤ 90 then Char.ofNat (c.toNat + 32) else c

/-- Case-sensitive "starts with" on character lists. -/
def startsWithCh : List Char → List Char → Bool
  | [], _ => true
  | _ :: _, [] => false
  | p :: ps, x :: xs => (x == p) && startsWithCh ps xs

/-- Substring containment (used for the `"wikipedia.org/wiki/" in low` test). -/
def hasSubstr (pat : List Char) : List Char → Bool
  | [] => startsWithCh pat []
  | x :: xs => startsWithCh pat (x :: xs) || hasSubstr pat xs

/-- Case-insensitive single-character match against a lowercase pattern
character `p`, the `re.IGNORECASE` semantics on ASCII. -/
def ciEq (p x : Char) : Bool := (x == p) || (isAsciiUpper x && (x.toNat + 32 == p.toNat))

/-- Case-insensitive "starts with", for `re.IGNORECASE` patterns.  The
pattern is supplied in lowercase. -/
def startsWithCI : List Char → List Char → Bool
  | [], _ => true
  | _ :: _, [] => false
  | p :: ps, x :: xs => ciEq p x && startsWithCI ps xs

/-- Index of the first case-insensitive occurrence of `pat` (the non-greedy
`.*?` search for the closing tag of a `<ref>` block). -/
def findCI (pat : List Char) : List Char → Option Nat
  | [] => if startsWithCI pat [] then some 0 else none
  | x :: r => if startsWithCI pat (x :: r) then some 0 else (findCI pat (x :: r).tail).map (· + 1)

/-- Index of the last element satisfying `p`. -/
def lastIdxOf (p : Char → Bool) : List Char → Option Nat
  | [] => none
  | c :: r =>
    match lastIdxOf p r with
    | some i => some (i + 1)
    | none => if p c then some 0 else none

/-- Fueled scanner implementing Python `re.sub` semantics: at each position
try the matcher; on a match emit its replacement and continue after the
consumed characters, otherwise keep one character and move on.  All the
matchers used consume at least one character, so fuel `xs.length` never
runs out (the `max n 1` guard is never exercised). -/
def scanSub (m : List Char → Option (Nat × List Char)) : Nat → List Char → List Char
  | 0, xs => xs
  | _ + 1, [] => []
  | f + 1, c :: rest =>
    match m (c :: rest) with
    | some (n, r) => r ++ scanSub m f ((c :: rest).drop (max n 1))
    | none => c :: scanSub m f rest

/-- Python `re.sub` of one pattern over a whole string. -/
def reSub (m : List Char → Option (Nat × List Char)) (xs : List Char) : List Char :=
  scanSub m xs.length xs

/-- Fueled scanner implementing Python `finditer`/`findall`: collect the
captured value of each non-overlapping leftmost match. -/
def scanFind (m : List Char → Option (Nat × List Char)) : Nat → List Char → List (List Char)
  | 0, _ => []
  | _ + 1, [] => []
  | f + 1, c :: rest =>
    match m (c :: rest) with
    | some (n, v) => v :: scanFind m f ((c :: rest).drop (max n 1))
    | none => scanFind m f rest

/-- Python `findall` over a whole string. -/
def reFindall (m : List Char → Option (Nat × List Char)) (xs : List Char) : List (List Char) :=
  scanFind m xs.length xs

/-- Fueled scanner implementing Python `re.split`: each match is a
separator; `acc` is the current piece, accumulated in reverse. -/
def scanSplit (m : List Char → Option Nat) : Nat → List Char → List Char → List (List Char)
  | 0, acc, xs => [acc.reverse ++ xs]
  | _ + 1, acc, [] => [acc.reverse]
  | f + 1, acc, c :: rest =>
    match m (c :: rest) with
    | some n => acc.reverse :: scanSplit m f [] ((c :: rest).drop (max n 1))
    | none => scanSplit m f (c :: acc) rest

/-- Python `re.split` over a whole string. -/
def reSplit (m : List Char → Option Nat) (xs : List Char) : List (List Char) :=
  scanSplit m xs.length [] xs

/-- Matcher for `<ref[^>]*>.*?</ref>` (IGNORECASE, DOTALL) in
`strip_markup`.  `[^>]*>` is the maximal run of non-`>` followed by `>`
(backtracking a shorter run leaves a non-`>` under `>`, so cannot help),
and the non-greedy `.*?</ref>` closes at the nearest `</ref>`. -/
def refBlockM (xs : List Char) : Option (Nat × List Char) :=
  if startsWithCI (("<ref").toList) xs then
    let after := xs.drop 4
    let attrs := after.takeWhile (fun c => !(c == '>'))
    match after.drop attrs.length with
    | '>' :: body =>
      match findCI (("</ref>").toList) body with
      | some i => some (4 + attrs.length + 1 + i + 6, [])
      | none => none
    | _ => none
  else none

/-- Matcher for the self-closing form `<ref[^/]*/\s*>` (IGNORECASE).
`[^/]*` must stop at the first `/` (it cannot contain one), so no
backtracking arises. -/
def refSelfM (xs : List Char) : Option (Nat × List Char) :=
  if startsWithCI (("<ref").toList) xs then
    let after := xs.drop 4
    let seg := after.takeWhile (fun c => !(c == '/'))
    match after.drop seg.length with
    | '/' :: r2 =>
      let ws := r2.takeWhile isWSChar
      match r2.drop ws.length with
      | '>' :: _ => some (4 + seg.length + 1 + ws.length + 1, [])
      | _ => none
    | _ => none
  else none

/-- Matcher for `<br\s*/?>` (IGNORECASE), replaced by a newline. -/
def brM (xs : List Char) : Option (Nat × List Char) :=
  if startsWithCI (("<br").toList) xs then
    let after := xs.drop 3
    let ws := after.takeWhile isWSChar
    match after.drop ws.length with
    | '/' :: '>' :: _ => some (3 + ws.length + 2, [('\n')])
    | '>' :: _ => some (3 + ws.length + 1, [('\n')])
    | _ => none
  else none

/-- Matcher for `</?[^>]+>` (remaining tags, removed keeping content).
Since `/` itself is a non-`>` character, the pattern is equivalent to `<`
followed by a nonempty maximal run of non-`>` followed by `>`. -/
def tagM (xs : List Char) : Option (Nat × List Char) :=
  match xs with
  | c :: rest =>
    if c = '<' then
      let run := rest.takeWhile (fun c => !(c == '>'))
      if run.isEmpty then none
      else
        match rest.drop run.length with
        | '>' :: _ => some (1 + run.length + 1, [])
        | _ => none
    else none
  | [] => none

/-- Matcher for `[ \t\r\f\v]+`, collapsed to a single space. -/
def hwsM (xs : List Char) : Option (Nat × List Char) :=
  let run := xs.takeWhile isHWSChar
  if run.isEmpty then none else some (run.length, [(' ')])

/-- Matcher for `\n\s*\n+`, collapsed to a single newline.  With `W` the
maximal whitespace run after the first newline, greedy matching with
backtracking consumes the first newline plus the prefix of `W` up to and
including the last newline of `W`; there is no match if `W` holds no
newline. -/
def blankM (xs : List Char) : Option (Nat × List Char) :=
  match xs with
  | c :: rest =>
    if c = '\n' then
      let w := rest.takeWhile isWSChar
      match lastIdxOf (fun c => c == '\n') w with
      | some i => some (1 + i + 1, [('\n')])
      | none => none
    else none
  | [] => none

/-- Characters allowed in the target segment of `WIKI_LINK_RE`, the class
`[^\]|#]`. -/
def wlChar (c : Char) : Bool := !(c == ']') && !(c == '|') && !(c == '#')

/-- Matcher for `WIKI_LINK_RE = \[\[([^\]|#]+)(?:\|[^\]]+)?\]\]`,
returning the first capture group (the link target).  Both `[^\]|#]+` and
`[^\]]+` are runs whose follow-set is disjoint from their character class,
so greedy matching without backtracking is exact. -/
def wikiM (xs : List Char) : Option (Nat × List Char) :=
  match xs with
  | c1 :: c2 :: rest =>
    if c1 = '[' ∧ c2 = '[' then
      let t := rest.takeWhile wlChar
      if t.isEmpty then none
      else
        let r2 := rest.drop t.length
        if startsWithCh (("]]").toList) r2 then some (2 + t.length + 2, t)
        else if r2.headD (' ') = '|' then
          let d := r2.tail.takeWhile (fun c => !(c == ']'))
          if d.isEmpty then none
          else if startsWithCh (("]]").toList) (r2.tail.drop d.length) then
            some (2 + t.length + 1 + d.length + 2, t)
          else none
        else none
    else none
  | _ => none

/-- `WIKI_LINK_RE` as a substitution matcher (replacement empty). -/
def wikiSubM (xs : List Char) : Option (Nat × List Char) :=
  (wikiM xs).map (fun p => (p.1, []))

/-- Matcher for `\(\s*\)` (empty parenthetical artifacts). -/
def parenM (xs : List Char) : Option (Nat × List Char) :=
  match xs with
  | c :: rest =>
    if c = '(' then
      let ws := rest.takeWhile isWSChar
      match rest.drop ws.length with
      | ')' :: _ => some (1 + ws.length + 1, [])
      | _ => none
    else none
  | [] => none

/-- Matcher for the `split_listish` separator `[\n;]+|(?:\s*,\s*)`:
alternative one is a nonempty run of newlines/semicolons, alternative two
is optional whitespace, a comma, then optional whitespace. -/
def splitM (xs : List Char) : Option Nat :=
  let run := xs.takeWhile (fun c => (c == '\n') || (c == ';'))
  if !run.isEmpty then some run.length
  else
    let ws1 := xs.takeWhile isWSChar
    let r := xs.drop ws1.length
    if r.headD (' ') = ',' then some (ws1.length + 1 + (r.tail.takeWhile isWSChar).length)
    else none

/-- Character class `[^\s\]]` of `URL_RE`. -/
def urlBodyChar (c : Char) : Bool := !(isWSChar c) && !(c == ']')

/-- Matcher for `URL_RE = https?://[^\s\]]+`, returning the whole match. -/
def urlM (xs : List Char) : Option (Nat × List Char) :=
  if startsWithCh (("https://").toList) xs then
    let body := (xs.drop 8).takeWhile urlBodyChar
    if body.isEmpty then none else some (8 + body.length, ("https://").toList ++ body)
  else if startsWithCh (("http://").toList) xs then
    let body := (xs.drop 7).takeWhile urlBodyChar
    if body.isEmpty then none else some (7 + body.length, ("http://").toList ++ body)
  else none

/-- Embedding of `value_parsing.strip_markup`: strip, remove `<ref>`
blocks, remove self-closing refs, turn `<br>` into newlines, drop all
remaining tags, collapse horizontal whitespace, collapse blank lines,
strip. -/
def strip_markup (t : List Char) : List Char :=
  pyStrip (reSub blankM (reSub hwsM (reSub tagM (reSub brM (reSub refSelfM (reSub refBlockM (pyStrip t)))))))

/-- Embedding of `value_parsing.split_listish`: strip markup, split on
newline/semicolon runs and commas, strip the pieces and drop empty ones. -/
def split_listish (t : List Char) : List (List Char) :=
  ((reSplit splitM (strip_markup t)).map pyStrip).filter (fun p => !p.isEmpty)

/-- Embedding of `value_parsing.extract_wikilinks`: titles of
`[[Title|label]]` tokens, each stripped. -/
def extract_wikilinks (t : List Char) : List (List Char) :=
  (reFindall wikiM t).map pyStrip

/-- Embedding of `value_parsing.parse_value`: linked titles plus cleaned
literal parts with the link tokens removed. -/
def parse_value (t : List Char) : List (List Char) × List (List Char) :=
  let linked := extract_wikilinks t
  let cleaned := strip_markup t
  let cleaned2 := reSub wikiSubM cleaned
  let cleaned3 := pyStrip (reSub parenM cleaned2)
  (linked, if cleaned3.isEmpty then [] else split_listish cleaned3)

example : parse_value (("[[Gondor]]").toList) = ([("Gondor").toList], []) := by decide
example : parse_value (("Elf, Human").toList) = ([], [("Elf").toList, ("Human").toList]) := by decide
example : parse_value (("[[Half-elven|Half-elf]] and [[Man]]").toList) =
    ([("Half-elven").toList, ("Man").toList], [("and").toList]) := by decide
example : parse_value (("[[Category:Foo]]").toList) = ([("Category:Foo").toList], []) := by decide
example : strip_markup (("a <ref name=x>junk</ref>b<br/>c").toList) = ("a b\nc").toList := by decide

/-- The characters `urllib.parse.quote` never escapes regardless of the
`safe` parameter: ASCII alphanumerics and `_.-~`. -/
def alwaysSafeChar (c : Char) : Bool :=
  isAsciiAlphaNum c || (c == '_') || (c == '.') || (c == '-') || (c == '~')

/-- UTF-8 encoding of one character, as the byte values `quote` escapes. -/
def utf8Bytes (c : Char) : List Nat :=
  let n := c.toNat
  if n < 128 then [n]
  else if n < 2048 then [192 + n / 64, 128 + n % 64]
  else if n < 65536 then [224 + n / 4096, 128 + (n / 64) % 64, 128 + n % 64]
  else [240 + n / 262144, 128 + (n / 4096) % 64, 128 + (n / 64) % 64, 128 + n % 64]

/-- Uppercase hexadecimal digit, as produced by `quote`. -/
def hexUpperCh (n : Nat) : Char := if n < 10 then Char.ofNat (48 + n) else Char.ofNat (55 + n)

/-- Percent-escape of one byte. -/
def pctEncByte (b : Nat) : List Char := [('%'), hexUpperCh (b / 16), hexUpperCh (b % 16)]

/-- Embedding of `urllib.parse.quote(s, safe)`: keep always-safe and
`safe`-listed characters, percent-escape the UTF-8 bytes of the rest. -/
def quoteChars (safe : List Char) (l : List Char) : List Char :=
  l.flatMap (fun c => if alwaysSafeChar c || safe.contains c then [c] else (utf8Bytes c).flatMap pctEncByte)

/-- Embedding of `build_kg.uri_escape_title`: strip, spaces to
underscores, then `quote` whose `safe` parameter is exactly the
always-safe set (so no extra safe characters). -/
def uri_escape_title (title : List Char) : List Char :=
  quoteChars [] ((pyStrip title).map (fun c => if c == ' ' then '_' else c))

/-- Modelled from the spec: `configs/settings.py` is not under `src/`; the
base IRI of the knowledge-graph namespaces is an opaque deployment
constant.  No claim depends on its value, so it is modelled as a fixed
placeholder string. -/
def KG_BASE : List Char := ("http://tolkien-kg.example.org").toList

/-- Modelled from the spec: `configs/settings.py` is not under `src/`; the
canonical wiki base URL is an opaque deployment constant, modelled as a
fixed placeholder string. -/
def TG_WIKI_BASE : List Char := ("https://tolkiengateway.net/wiki/").toList

/-- Python `str.rstrip("/")`. -/
def rstripSlash (l : List Char) : List Char :=
  (l.reverse.dropWhile (fun c => c == '/')).reverse

/-- The entity-identifier namespace `RES` of `build_kg`. -/
def RES_NS : List Char := rstripSlash KG_BASE ++ ("/resource/").toList

/-- The document-identifier namespace `PAGE` of `build_kg`. -/
def PAGE_NS : List Char := rstripSlash KG_BASE ++ ("/page/").toList

/-- Embedding of `build_kg.resource_uri`. -/
def resource_uri (title : List Char) : List Char := RES_NS ++ uri_escape_title title

/-- Embedding of `build_kg.page_uri`. -/
def page_uri (title : List Char) : List Char := PAGE_NS ++ uri_escape_title title

/-- Embedding of `build_kg.wiki_url`. -/
def wiki_url (title : List Char) : List Char := TG_WIKI_BASE ++ uri_escape_title title

/-- Result of `urllib.parse.urlsplit`. -/
structure SplitRes where
  scheme : List Char
  netloc : List Char
  path : List Char
  query : List Char
  fragment : List Char
deriving DecidableEq

/-- Scheme characters accepted by `urlsplit` after the leading letter. -/
def isSchemeChar (c : Char) : Bool := isAsciiAlphaNum c || (c == '+') || (c == '-') || (c == '.')

/-- C0 control characters and space, stripped from both ends by
`urlsplit`. -/
def isC0OrSpace (c : Char) : Bool := decide (c.toNat ≤ 32)

/-- Tab, CR and LF, removed everywhere by `urlsplit`. -/
def isUnsafeUrlCh (c : Char) : Bool := decide (c.toNat = 9 ∨ c.toNat = 13 ∨ c.toNat = 10)

/-- First index where `p` holds. -/
def firstIdxWhere (p : Char → Bool) : List Char → Option Nat
  | [] => none
  | c :: r => if p c then some 0 else (firstIdxWhere p r).map (· + 1)

/-- Embedding of `urllib.parse.urlsplit` (the fragment used by
`safe_iri`): sanitize, split off `scheme:`, `//netloc`, `#fragment`, then
`?query`; raise `ValueError` (the `.error` result) on a netloc with
unbalanced square brackets. -/
def urlsplitE (url : List Char) : Except Unit SplitRes :=
  let u0 := ((url.dropWhile isC0OrSpace).reverse.dropWhile isC0OrSpace).reverse
  let u1 := u0.filter (fun c => !(isUnsafeUrlCh c))
  let schemeSplit :=
    match firstIdxWhere (fun c => c == ':') u1 with
    | some i =>
      if 0 < i ∧ (u1.take i).all isSchemeChar ∧ isAsciiAlpha (u1.headD (' ')) then
        ((u1.take i).map lowerCh, u1.drop (i + 1))
      else ([], u1)
    | none => ([], u1)
  let scheme := schemeSplit.1
  let rest := schemeSplit.2
  let netlocSplit :=
    if startsWithCh (("//").toList) rest then
      let body := rest.drop 2
      let n := body.takeWhile (fun c => !(c == '/') && !(c == '?') && !(c == '#'))
      (n, body.drop n.length)
    else ([], rest)
  let netloc := netlocSplit.1
  let rest2 := netlocSplit.2
  if (netloc.contains '[' && !(netloc.contains ']')) ||
     (netloc.contains ']' && !(netloc.contains '[')) then Except.error ()
  else
    let fragSplit :=
      match firstIdxWhere (fun c => c == '#') rest2 with
      | some i => (rest2.take i, rest2.drop (i + 1))
      | none => (rest2, [])
    let querySplit :=
      match firstIdxWhere (fun c => c == '?') fragSplit.1 with
      | some i => ((fragSplit.1).take i, (fragSplit.1).drop (i + 1))
      | none => (fragSplit.1, [])
    Except.ok ⟨scheme, netloc, querySplit.1, querySplit.2, fragSplit.2⟩

/-- `safe` parameter for the path component in `safe_iri`. -/
def pathSafe : List Char := ("/:_()'-.,~%").toList

/-- `safe` parameter for the query component in `safe_iri`. -/
def querySafe : List Char := ("=&?/:_()'-.,~%").toList

/-- `safe` parameter for the fragment component in `safe_iri`. -/
def fragSafe : List Char := (":_()'-.,~%").toList

/-- Embedding of `urllib.parse.urlunsplit`. -/
def urlunsplit (scheme netloc path query fragment : List Char) : List Char :=
  let u :=
    if !netloc.isEmpty || startsWithCh (("//").toList) path then
      ('/') :: ('/') :: (netloc ++ (if !path.isEmpty && !(startsWithCh (("/").toList) path) then ('/') :: path else path))
    else path
  let u := if !scheme.isEmpty then scheme ++ (':') :: u else u
  let u := if !query.isEmpty then u ++ ('?') :: query else u
  if !fragment.isEmpty then u ++ ('#') :: fragment else u

/-- The body of `build_kg.safe_iri`'s `try` block: split the URL, reject
missing scheme or authority, percent-escape path, query and fragment with
their component-specific safe sets, and reassemble.  A `ValueError` from
`urlsplit` propagates as `.error`. -/
def safe_iri_body (u : List Char) : Except Unit (Option (List Char)) :=
  match urlsplitE u with
  | Except.error e => Except.error e
  | Except.ok parts =>
    if parts.scheme.isEmpty || parts.netloc.isEmpty then Except.ok none
    else Except.ok (some (urlunsplit parts.scheme parts.netloc
      (quoteChars pathSafe parts.path) (quoteChars querySafe parts.query)
      (quoteChars fragSafe parts.fragment)))

/-- Embedding of `build_kg.safe_iri`: strip, reject empty, then the `try`
block with any exception caught and turned into `None`. -/
def safe_iri (url : List Char) : Option (List Char) :=
  let u := pyStrip url
  if u.isEmpty then none
  else
    match safe_iri_body u with
    | Except.ok v => v
    | Except.error _ => none

/-- Embedding of `build_kg.extract_urls`. -/
def extract_urls (raw : List Char) : List (List Char) :=
  if (pyStrip raw).isEmpty then [] else reFindall urlM raw

/-- Core of the bare-domain pattern
`^[a-zA-Z0-9.-]+\.[a-zA-Z]{2,}(/.*)?$` of `build_kg.normalize_url`: the
head before the first `/` decomposes at its last dot into a nonempty
label part and an alphabetic top-level label of length at least two, and
an optional `/`-tail free of newlines (`.` does not match `\n`). -/
def isDomainChar (c : Char) : Bool := isAsciiAlphaNum c || (c == '.') || (c == '-')

/-- Decision procedure for the bare-domain regular expression (see
`isDomainChar`); `$` also accepts a single trailing newline. -/
def bareDomain (u : List Char) : Bool :=
  let v := if u.getLast? == some ('\n') then u.dropLast else u
  let head := v.takeWhile (fun c => !(c == '/'))
  let rest := v.drop head.length
  (match rest with
   | [] => true
   | _ :: r => !(r.contains '\n')) &&
  head.all isDomainChar &&
  (match lastIdxOf (fun c => c == '.') head with
   | none => false
   | some i => decide (1 ≤ i) && decide (2 ≤ (head.drop (i + 1)).length) && (head.drop (i + 1)).all isAsciiAlpha)

/-- Embedding of `build_kg.normalize_url`: strip markup; an explicit
`http(s)://` URL goes through `safe_iri`; a bare domain gets `https://`
prefixed; anything else is rejected. -/
def normalize_url (u : List Char) : Option (List Char) :=
  let u := pyStrip (strip_markup u)
  if u.isEmpty then none
  else if startsWithCh (("http://").toList) u || startsWithCh (("https://").toList) u then safe_iri u
  else if bareDomain u then safe_iri (("https://").toList ++ u)
  else none

/-- Embedding of `build_kg.image_filename_to_filepage_url`. -/
def image_filename_to_filepage_url (filename : List Char) : Option (List Char) :=
  let f := pyStrip (strip_markup filename)
  if f.isEmpty then none
  else
    let f2 := if startsWithCh (("file:").toList) (f.map lowerCh) then f.drop 5 else f
    some (TG_WIKI_BASE ++ ("File:").toList ++ uri_escape_title f2)

example : extract_urls (("see http://example.com/a b and more").toList) = [("http://example.com/a").toList] := by decide
example : normalize_url (("http://example.com/a").toList) = some (("http://example.com/a").toList) := by decide
example : normalize_url (("not a url").toList) = none := by decide
example : safe_iri (("http://[x").toList) = none := by decide
example : safe_iri (("https://en.wikipedia.org/wiki/J. R. R. Tolkien").toList) =
    some (("https://en.wikipedia.org/wiki/J.%20R.%20R.%20Tolkien").toList) := by decide
example : normalize_url (("anke.edoras-art.de").toList) = some (("https://anke.edoras-art.de").toList) := by decide

deriving instance DecidableEq for Except

/-- An RDF object: IRI reference, plain literal, or language-tagged
literal. -/
inductive RdfObj : Type
  | iri : List Char → RdfObj
  | lit : List Char → RdfObj
  | langLit : List Char → List Char → RdfObj
deriving DecidableEq

/-- One statement (triple) of the output graph. -/
structure Stmt where
  subj : List Char
  pred : List Char
  obj : RdfObj
deriving DecidableEq

/-- `schema:about`. -/
def SCHEMA_about : List Char := ("http://schema.org/about").toList

/-- `schema:url`, the canonical web-address predicate. -/
def SCHEMA_url : List Char := ("http://schema.org/url").toList

/-- `schema:relatedTo`. -/
def SCHEMA_relatedTo : List Char := ("http://schema.org/relatedTo").toList

/-- `rdfs:label`. -/
def RDFS_label : List Char := ("http://www.w3.org/2000/01/rdf-schema#label").toList

/-- `owl:sameAs`. -/
def OWL_sameAs : List Char := ("http://www.w3.org/2002/07/owl#sameAs").toList

/-- `rdf:type`. -/
def RDF_type : List Char := ("http://www.w3.org/1999/02/22-rdf-syntax-ns#type").toList

/-- One field rule of the mapping configuration.  `property` is accessed
with `rule["property"]` in the source, which raises `KeyError` when the
key is absent — hence an `Option` whose `none` drives the `.error`
outcome; `kind` is read with `rule.get("kind", "auto")`. -/
structure FieldRule where
  property : Option (List Char)
  kind : Option (List Char)
deriving DecidableEq

/-- Mapping entry for one template name: optional schema class, optional
domain class, and the field-key table. -/
structure TemplateSpec where
  cls : Option (List Char)
  tgCls : Option (List Char)
  fields : List (List Char × FieldRule)
deriving DecidableEq

/-- One template invocation as produced by the (excluded) wikitext parser:
a name and named parameters. -/
structure Template where
  name : List Char
  params : List (List Char × List Char)
deriving DecidableEq

/-- Embedding of `build_kg.normalize_template_name`: strip, lowercase,
underscores to spaces. -/
def normalize_template_name (name : List Char) : List Char :=
  ((pyStrip name).map lowerCh).map (fun c => if c == '_' then ' ' else c)

/-- Embedding of `build_kg.BAD_LINK_PREFIXES` applied to a lowercased
title: the non-content namespace test. -/
def hasBadNs (t : List Char) : Bool :=
  startsWithCh (("category:").toList) (t.map lowerCh) ||
  startsWithCh (("file:").toList) (t.map lowerCh) ||
  startsWithCh (("template:").toList) (t.map lowerCh) ||
  startsWithCh (("help:").toList) (t.map lowerCh) ||
  startsWithCh (("special:").toList) (t.map lowerCh) ||
  startsWithCh (("talk:").toList) (t.map lowerCh)

/-- The filter `if t and not t.lower().startswith(BAD_LINK_PREFIXES)` of
`apply_infobox`. -/
def keepTitle (t : List Char) : Bool := !t.isEmpty && !(hasBadNs t)

/-- The `wikilink_or_literal` / `auto` emission of `apply_infobox`: one
cross-reference per surviving linked title, one literal per nonempty
literal part, and a stripped-raw-value literal when the classifier
returned two empty lists. -/
def wikilinkStmts (r prop : List Char) (linked lits : List (List Char)) (raw : List Char) : List Stmt :=
  (linked.filter keepTitle).map (fun t => Stmt.mk r prop (RdfObj.iri (resource_uri t))) ++
  (lits.filter (fun l => !l.isEmpty)).map (fun l => Stmt.mk r prop (RdfObj.lit l)) ++
  (if linked.isEmpty && lits.isEmpty then [Stmt.mk r prop (RdfObj.lit (strip_markup raw))] else [])

/-- The `schema:url` special case of `apply_infobox`: scan the raw value
for embedded URLs and emit one IRI statement per normalized URL; with no
embedded URL, try to normalize the whole raw value; never emit a
literal. -/
def urlFieldStmts (r prop raw : List Char) : List Stmt :=
  let urls := extract_urls raw
  if !urls.isEmpty then
    urls.filterMap (fun u => (normalize_url u).map (fun nu => Stmt.mk r prop (RdfObj.iri nu)))
  else
    match normalize_url raw with
    | some nu => [Stmt.mk r prop (RdfObj.iri nu)]
    | none => []

/-- Processing of one template parameter inside the `for param` loop of
`apply_infobox`.  Statements added to the mutable graph before an
exception are discarded together with the whole page by the only caller,
so the exception is modelled as `.error` dropping the invocation's
statements. -/
def applyParam (r : List Char) (fields : List (List Char × FieldRule)) (k v : List Char) :
    Except Unit (List Stmt) :=
  match fields.lookup ((pyStrip k).map lowerCh) with
  | none => Except.ok []
  | some rule =>
    let raw := pyStrip v
    if raw.isEmpty then Except.ok []
    else
      match rule.property with
      | none => Except.error ()
      | some prop =>
        let kind := rule.kind.getD (("auto").toList)
        if prop = SCHEMA_url then Except.ok (urlFieldStmts r prop raw)
        else if kind = ("image").toList then
          Except.ok (match image_filename_to_filepage_url raw with
            | some u => [Stmt.mk r prop (RdfObj.iri u)]
            | none => [])
        else
          let pv := parse_value raw
          if kind = ("literal").toList then Except.ok [Stmt.mk r prop (RdfObj.lit (strip_markup raw))]
          else if kind = ("wikilink_or_literal").toList || kind = ("auto").toList then
            Except.ok (wikilinkStmts r prop pv.1 pv.2 raw)
          else Except.ok [Stmt.mk r prop (RdfObj.lit (strip_markup raw))]

/-- Sequential processing of a template's parameters; the first exception
aborts the invocation. -/
def applyParams (r : List Char) (fields : List (List Char × FieldRule)) :
    List (List Char × List Char) → Except Unit (List Stmt)
  | [] => Except.ok []
  | p :: ps =>
    match applyParam r fields p.1 p.2 with
    | Except.error e => Except.error e
    | Except.ok s =>
      match applyParams r fields ps with
      | Except.error e => Except.error e
      | Except.ok rest => Except.ok (s ++ rest)

/-- Embedding of `build_kg.apply_infobox` for one template invocation:
type statements for the declared classes, then the field rules over the
parameters. -/
def apply_infobox (r : List Char) (tmpl : Template) (mappings : List (List Char × TemplateSpec)) :
    Except Unit (List Stmt) :=
  match mappings.lookup (normalize_template_name tmpl.name) with
  | none => Except.ok []
  | some spec =>
    let typeStmts :=
      (match spec.cls with
       | some c => [Stmt.mk r RDF_type (RdfObj.iri c)]
       | none => []) ++
      (match spec.tgCls with
       | some c => [Stmt.mk r RDF_type (RdfObj.iri c)]
       | none => [])
    match applyParams r spec.fields tmpl.params with
    | Except.error e => Except.error e
    | Except.ok s => Except.ok (typeStmts ++ s)

/-- Embedding of `build_kg.find_mapped_templates` over the list of
template invocations delivered by the (excluded) wikitext parser. -/
def find_mapped_templates (tmpls : List Template) (mappings : List (List Char × TemplateSpec)) :
    List Template :=
  tmpls.filter (fun t => (mappings.lookup (normalize_template_name t.name)).isSome)

/-- Sequential mapping of all matched invocations of a page. -/
def applyTemplates (r : List Char) (tmpls : List Template) (mappings : List (List Char × TemplateSpec)) :
    Except Unit (List Stmt) :=
  match tmpls with
  | [] => Except.ok []
  | t :: ts =>
    match apply_infobox r t mappings with
    | Except.error e => Except.error e
    | Except.ok s =>
      match applyTemplates r ts mappings with
      | Except.error e => Except.error e
      | Except.ok rest => Except.ok (s ++ rest)

/-- Cached parse payload of one page, the fields of the JSON that
`build_graph_for_title` consumes (the wikitext is represented by its
parsed template list, produced by the excluded collaborator
`mwparserfromhell`). -/
structure PageCtx where
  templates : List Template
  links : List (List Char)
  externallinks : List (List Char)
deriving DecidableEq

/-- Embedding of `build_kg.extract_links`: keep titles that are nonempty
and outside the excluded namespaces. -/
def extract_links (links : List (List Char)) : List (List Char) :=
  links.filter keepTitle

/-- Embedding of `build_kg.add_core_triples`: document is about entity,
canonical wiki URL on both, English-tagged verbatim-title label on
both. -/
def add_core_triples_stmts (title : List Char) : List Stmt :=
  [Stmt.mk (page_uri title) SCHEMA_about (RdfObj.iri (resource_uri title)),
   Stmt.mk (page_uri title) SCHEMA_url (RdfObj.iri (wiki_url title)),
   Stmt.mk (resource_uri title) SCHEMA_url (RdfObj.iri (wiki_url title)),
   Stmt.mk (resource_uri title) RDFS_label (RdfObj.langLit title (("en").toList)),
   Stmt.mk (page_uri title) RDFS_label (RdfObj.langLit title (("en").toList))]

/-- The external-link handling of `build_graph_for_title`: a Wikipedia
cross-link with a successful escape becomes `owl:sameAs` on the entity;
anything else becomes `schema:url` on the document, IRI if escaping
succeeded, literal otherwise. -/
def externalStmts (p r u : List Char) : List Stmt :=
  let low := u.map lowerCh
  match safe_iri u with
  | some s =>
    if hasSubstr (("wikipedia.org/wiki/").toList) low then [Stmt.mk r OWL_sameAs (RdfObj.iri s)]
    else [Stmt.mk p SCHEMA_url (RdfObj.iri s)]
  | none => [Stmt.mk p SCHEMA_url (RdfObj.lit u)]

/-- Failure modes of `build_graph_for_title`: missing cached source
(`FileNotFoundError`) or an exception while mapping a template
invocation. -/
inductive BuildErr : Type
  | missingCache : BuildErr
  | mappingErr : BuildErr
deriving DecidableEq

/-- Embedding of `build_kg.build_graph_for_title`: core identity
statements, internal-link statements, external-link statements, then (when
requested) the infobox statements of every mapped template.  An exception
inside the template loop propagates, discarding the whole page graph. -/
def build_graph_for_title (cache : Option PageCtx) (title : List Char)
    (mappings : List (List Char × TemplateSpec)) (includeInfobox : Bool) :
    Except BuildErr (List Stmt) :=
  match cache with
  | none => Except.error BuildErr.missingCache
  | some ctx =>
    let p := page_uri title
    let r := resource_uri title
    let core := add_core_triples_stmts title
    let linkStmts := (extract_links ctx.links).map
      (fun lt => Stmt.mk r SCHEMA_relatedTo (RdfObj.iri (resource_uri lt)))
    let extStmts := ctx.externallinks.flatMap (externalStmts p r)
    if includeInfobox then
      match applyTemplates r (find_mapped_templates ctx.templates mappings) mappings with
      | Except.error _ => Except.error BuildErr.mappingErr
      | Except.ok infobox => Except.ok (core ++ linkStmts ++ extStmts ++ infobox)
    else Except.ok (core ++ linkStmts ++ extStmts)

/-- Embedding of the page loop of `build_kg_chunked.build_kg_chunked`
(chunked file flushing elided: the model returns the statements that reach
the accumulation graph).  The `try`/`except` sits at the page boundary: a
failing page contributes nothing and the loop continues. -/
def build_kg_chunked (cache : List (List Char × PageCtx)) (titles : List (List Char))
    (mappings : List (List Char × TemplateSpec)) (includeInfobox : Bool) : List Stmt :=
  match titles with
  | [] => []
  | t :: ts =>
    (match build_graph_for_title (cache.lookup t) t mappings includeInfobox with
     | Except.ok s => s
     | Except.error _ => []) ++ build_kg_chunked cache ts mappings includeInfobox

/-- ASCII whitespace at the byte level (titles as UTF-8 byte sequences,
since `quote` escapes encoded bytes). -/
def isWSByte (b : Nat) : Bool := decide (b = 32 ∨ b = 9 ∨ b = 10 ∨ b = 13 ∨ b = 11 ∨ b = 12)

/-- Byte-level `str.strip()`. -/
def stripBytes (l : List Nat) : List Nat :=
  ((l.dropWhile isWSByte).reverse.dropWhile isWSByte).reverse

/-- The byte-level allow-list of `uri_escape_title`'s `quote` call: ASCII
letters, digits, `_`, `.`, `~`, `-`. -/
def safeByte (b : Nat) : Bool :=
  decide ((65 ≤ b ∧ b ≤ 90) ∨ (97 ≤ b ∧ b ≤ 122) ∨ (48 ≤ b ∧ b ≤ 57) ∨ b = 95 ∨ b = 46 ∨ b = 126 ∨ b = 45)

/-- Uppercase hexadecimal digit at the byte level. -/
def hexUpperB (n : Nat) : Nat := if n < 10 then 48 + n else 55 + n

/-- Byte-level `quote` of one byte: kept if safe, else `%XX`. -/
def quoteByte (b : Nat) : List Nat := if safeByte b then [b] else [37, hexUpperB (b / 16), hexUpperB (b % 16)]

/-- Byte-level `quote` over a byte string. -/
def quoteBytesAll (l : List Nat) : List Nat := l.flatMap quoteByte

/-- The title normalization of `uri_escape_title` at the byte level:
strip, then spaces to underscores. -/
def normTitleBytes (l : List Nat) : List Nat :=
  (stripBytes l).map (fun b => if b == 32 then 95 else b)

/-- Byte-level `uri_escape_title`. -/
def uriEscapeTitleBytes (l : List Nat) : List Nat := quoteBytesAll (normTitleBytes l)

/-- Byte-level `resource_uri` / `entity_id`: the entity namespace prefix
followed by the escaped normalized title. -/
def entityIdBytes (t : List Nat) : List Nat := RES_NS.map Char.toNat ++ uriEscapeTitleBytes t

/-- Inverse of `hexUpperB` on hex digits. -/
def unhexB (b : Nat) : Nat := if 48 ≤ b ∧ b ≤ 57 then b - 48 else b - 55

/-- Standard percent-decoding, the left inverse of `quoteBytesAll` that
makes the escaping injective. -/
def pctDecode : List Nat → List Nat
  | [] => []
  | b :: rest =>
    if b = 37 ∧ 2 ≤ rest.length then
      (unhexB (rest.headD 0) * 16 + unhexB (rest.tail.headD 0)) :: pctDecode rest.tail.tail
    else b :: pctDecode rest
termination_by l => l.length
decreasing_by all_goals simp [List.length_tail]; try omega

theorem unhexB_hexUpperB (n : Nat) (h : n < 16) : unhexB (hexUpperB n) = n := by
  simp only [unhexB, hexUpperB]
  split <;> split <;> omega

theorem safeByte_ne_37 {b : Nat} (h : safeByte b = true) : b ≠ 37 := by
  intro e
  subst e
  simp [safeByte] at h

theorem pctDecode_nil : pctDecode [] = [] := by
  simp [pctDecode]

theorem pctDecode_quoteByte (b : Nat) (hb : b < 256) (rest : List Nat) :
    pctDecode (quoteByte b ++ rest) = b :: pctDecode rest := by
  by_cases hs : safeByte b
  · have h37 := safeByte_ne_37 hs
    simp [quoteByte, hs, pctDecode, h37]
  · simp only [quoteByte, hs, Bool.false_eq_true, if_false, List.cons_append, List.nil_append]
    rw [pctDecode]
    simp only [List.length_cons, List.headD_cons, List.tail_cons]
    rw [if_pos (by simp)]
    rw [unhexB_hexUpperB _ (by omega), unhexB_hexUpperB _ (by omega)]
    congr 1
    omega

theorem pctDecode_quoteBytesAll (l : List Nat) (h : ∀ b ∈ l, b < 256) (rest : List Nat) :
    pctDecode (quoteBytesAll l ++ rest) = l ++ pctDecode rest := by
  induction l with
  | nil => simp [quoteBytesAll]
  | cons b t ih =>
    have hb : b < 256 := h b (List.mem_cons_self b t)
    have ht : ∀ x ∈ t, x < 256 := fun x hx => h x (List.mem_cons_of_mem b hx)
    simp only [quoteBytesAll, List.flatMap_cons, List.append_assoc]
    rw [pctDecode_quoteByte b hb]
    simp only [List.cons_append]
    rw [show t.flatMap quoteByte = quoteBytesAll t from rfl, ih ht]

theorem quoteBytesAll_inj (l1 l2 : List Nat) (h1 : ∀ b ∈ l1, b < 256) (h2 : ∀ b ∈ l2, b < 256)
    (he : quoteBytesAll l1 = quoteBytesAll l2) : l1 = l2 := by
  have e1 : pctDecode (quoteBytesAll l1) = l1 := by
    have := pctDecode_quoteBytesAll l1 h1 []
    simpa [pctDecode_nil] using this
  have e2 : pctDecode (quoteBytesAll l2) = l2 := by
    have := pctDecode_quoteBytesAll l2 h2 []
    simpa [pctDecode_nil] using this
  rw [← e1, ← e2, he]

theorem mem_stripBytes {b : Nat} {l : List Nat} (h : b ∈ stripBytes l) : b ∈ l := by
  simp only [stripBytes, List.mem_reverse] at h
  have h2 := (List.dropWhile_sublist (l := (l.dropWhile isWSByte).reverse) (p := isWSByte)).subset h
  rw [List.mem_reverse] at h2
  exact (List.dropWhile_sublist (l := l) (p := isWSByte)).subset h2

theorem normTitleBytes_bound {l : List Nat} (h : ∀ b ∈ l, b < 256) :
    ∀ b ∈ normTitleBytes l, b < 256 := by
  intro b hb
  simp only [normTitleBytes, List.mem_map] at hb
  obtain ⟨a, ha, rfl⟩ := hb
  have : a < 256 := h a (mem_stripBytes ha)
  split <;> omega

theorem quoteBytesAll_of_safe {l : List Nat} (h : ∀ b ∈ l, safeByte b = true) :
    quoteBytesAll l = l := by
  induction l with
  | nil => simp [quoteBytesAll]
  | cons b t ih =>
    have hb := h b (List.mem_cons_self b t)
    have ht : ∀ x ∈ t, safeByte x = true := fun x hx => h x (List.mem_cons_of_mem b hx)
    simp [quoteBytesAll, quoteByte, hb] at ih ⊢
    exact ih ht

theorem safeByte_not_ws {b : Nat} (h : safeByte b = true) : isWSByte b = false := by
  simp only [safeByte, decide_eq_true_eq] at h
  simp only [isWSByte, decide_eq_false_iff_not]
  omega

theorem dropWhileB_eq_self {p : Nat → Bool} {l : List Nat} (h : ∀ b ∈ l, p b = false) :
    l.dropWhile p = l := by
  cases l with
  | nil => rfl
  | cons c r => simp [List.dropWhile, h c (List.mem_cons_self c r)]

theorem stripBytes_eq_self {l : List Nat} (h : ∀ b ∈ l, isWSByte b = false) :
    stripBytes l = l := by
  simp only [stripBytes]
  rw [dropWhileB_eq_self h, dropWhileB_eq_self (by intro b hb; exact h b (List.mem_reverse.mp hb))]
  exact List.reverse_reverse l

theorem mapIdOn {α : Type} {f : α → α} {l : List α} (h : ∀ b ∈ l, f b = b) : l.map f = l := by
  induction l with
  | nil => rfl
  | cons c r ih =>
    simp only [List.map_cons, h c (List.mem_cons_self c r)]
    rw [ih (fun b hb => h b (List.mem_cons_of_mem c hb))]

theorem normTitleBytes_of_safe {l : List Nat} (h : ∀ b ∈ l, safeByte b = true) :
    normTitleBytes l = l := by
  simp only [normTitleBytes]
  rw [stripBytes_eq_self (fun b hb => safeByte_not_ws (h b hb))]
  refine mapIdOn (fun b hb => ?_)
  have hb' := h b hb
  have : b ≠ 32 := by
    intro e
    subst e
    simp [safeByte] at hb'
  simp [this]

/-- C4 (counterexample): identifier escaping is not idempotent.  The safe
set of `quote` excludes `%`, so re-escaping the already-escaped title
`a&b` (bytes `[97, 38, 98]`, escaped `a%26b`) re-encodes the percent sign
to `a%2526b`. -/
theorem c4_counterexample :
    uriEscapeTitleBytes (uriEscapeTitleBytes [97, 38, 98]) ≠ uriEscapeTitleBytes [97, 38, 98] := by
  decide

/-- C4 (amended): identifier construction is deterministic and injective
over normalized titles — for byte-string titles `t1`, `t2` whose
normalized forms differ, `entity_id(t1) ≠ entity_id(t2)` — and the
escaping is idempotent only on titles whose normalized form consists
entirely of allow-list characters (so that the escaped form contains no
percent sign). -/
theorem c4_amended :
    (∀ t1 t2 : List Nat, (∀ b ∈ t1, b < 256) → (∀ b ∈ t2, b < 256) →
        normTitleBytes t1 ≠ normTitleBytes t2 → entityIdBytes t1 ≠ entityIdBytes t2) ∧
    (∀ t : List Nat, entityIdBytes t = entityIdBytes t) ∧
    (∀ t : List Nat, (∀ b ∈ normTitleBytes t, safeByte b = true) →
        uriEscapeTitleBytes (uriEscapeTitleBytes t) = uriEscapeTitleBytes t) := by
  refine ⟨?_, fun t => rfl, ?_⟩
  · intro t1 t2 h1 h2 hne he
    apply hne
    have hq : quoteBytesAll (normTitleBytes t1) = quoteBytesAll (normTitleBytes t2) :=
      List.append_cancel_left he
    exact quoteBytesAll_inj _ _ (normTitleBytes_bound h1) (normTitleBytes_bound h2) hq
  · intro t h
    have e1 : uriEscapeTitleBytes t = normTitleBytes t := quoteBytesAll_of_safe h
    rw [e1]
    show quoteBytesAll (normTitleBytes (normTitleBytes t)) = normTitleBytes t
    rw [normTitleBytes_of_safe h]
    exact quoteBytesAll_of_safe h

/-- C4 (witness): two concrete titles (`A` and `B`) that differ after
normalization receive distinct entity identifiers. -/
theorem c4_witness : entityIdBytes [65] ≠ entityIdBytes [66] :=
  c4_amended.1 [65] [66] (by decide) (by decide) (by decide)

/-- C5 (counterexample): on `[[Half-elven|Half-elf]] and [[Man]]` the
classifier does not return empty literal parts — the stray connective
`and` left between the removed link tokens is kept, so the claimed result
is false. -/
theorem c5_counterexample :
    ¬ (parse_value (("[[Half-elven|Half-elf]] and [[Man]]").toList) =
        ([("Half-elven").toList, ("Man").toList], [])) := by
  decide

/-- C5 (amended): `classify("[[Half-elven|Half-elf]] and [[Man]]")`
returns linked titles `Half-elven`, `Man` and keeps the stray connective:
literal parts `["and"]` (the implementation retains bare conjunctions). -/
theorem c5_amended :
    parse_value (("[[Half-elven|Half-elf]] and [[Man]]").toList) =
      ([("Half-elven").toList, ("Man").toList], [("and").toList]) := by
  decide

/-- C1 (counterexample): the non-empty parameter value `[[Category:Foo]]`
under an `auto` field rule yields zero statements — the classifier
returns one linked title which the namespace filter drops, the literal
part list is empty, and the non-empty linked list suppresses the
fallback. -/
theorem c1_counterexample :
    applyParam (("r").toList)
        [((("race").toList), FieldRule.mk (some (("p").toList)) (some (("auto").toList)))]
        (("race").toList) (("[[Category:Foo]]").toList) = Except.ok [] ∧
    (pyStrip (("[[Category:Foo]]").toList)).isEmpty = false := by
  decide


theorem wikilink_mem_cross (r prop raw : List Char) (linked lits : List (List Char))
    (t : List Char) (ht : t ∈ linked) (hk : keepTitle t = true) :
    Stmt.mk r prop (RdfObj.iri (resource_uri t)) ∈ wikilinkStmts r prop linked lits raw := by
  simp only [wikilinkStmts, List.mem_append, List.mem_map, List.mem_filter]
  exact Or.inl (Or.inl ⟨t, ⟨ht, hk⟩, rfl⟩)

theorem wikilink_mem_lit (r prop raw : List Char) (linked lits : List (List Char))
    (l : List Char) (hl : l ∈ lits) (hne : l.isEmpty = false) :
    Stmt.mk r prop (RdfObj.lit l) ∈ wikilinkStmts r prop linked lits raw := by
  simp only [wikilinkStmts, List.mem_append, List.mem_map, List.mem_filter]
  exact Or.inl (Or.inr ⟨l, ⟨hl, by simp [hne]⟩, rfl⟩)

theorem wikilink_fallback (r prop raw : List Char) (linked lits : List (List Char))
    (h1 : linked = []) (h2 : lits = []) :
    wikilinkStmts r prop linked lits raw = [Stmt.mk r prop (RdfObj.lit (strip_markup raw))] := by
  simp [wikilinkStmts, h1, h2]

/-- C1 (amended): for a non-empty (post-trim) parameter whose lowercased
key matches a rule of kind `wikilink_or_literal` or `auto` (with a target
predicate other than the web-address predicate, which has its own
override), the Field Mapper emits the `wikilinkStmts` of the classifier
result: one cross-reference statement per linked title that survives the
non-content-namespace filter, one plain-text-literal statement per
nonempty literal part, and the single stripped-raw-value fallback literal
exactly when the classifier returned two empty lists.  A field whose
linked titles are all filtered away and whose literal-part list is empty
yields no statement, so "at least one statement" is guaranteed only
outside that case. -/
theorem c1_amended (r k v prop : List Char) (rule : FieldRule)
    (fields : List (List Char × FieldRule))
    (hlook : fields.lookup ((pyStrip k).map lowerCh) = some rule)
    (hraw : (pyStrip v).isEmpty = false)
    (hprop : rule.property = some prop)
    (hne : ¬ prop = SCHEMA_url)
    (hkind : rule.kind = some (("auto").toList) ∨ rule.kind = some (("wikilink_or_literal").toList)) :
    applyParam r fields k v =
      Except.ok (wikilinkStmts r prop (parse_value (pyStrip v)).1 (parse_value (pyStrip v)).2 (pyStrip v)) ∧
    (∀ t ∈ (parse_value (pyStrip v)).1, keepTitle t = true →
      Stmt.mk r prop (RdfObj.iri (resource_uri t)) ∈
        wikilinkStmts r prop (parse_value (pyStrip v)).1 (parse_value (pyStrip v)).2 (pyStrip v)) ∧
    (∀ l ∈ (parse_value (pyStrip v)).2, l.isEmpty = false →
      Stmt.mk r prop (RdfObj.lit l) ∈
        wikilinkStmts r prop (parse_value (pyStrip v)).1 (parse_value (pyStrip v)).2 (pyStrip v)) ∧
    ((parse_value (pyStrip v)).1 = [] → (parse_value (pyStrip v)).2 = [] →
      wikilinkStmts r prop (parse_value (pyStrip v)).1 (parse_value (pyStrip v)).2 (pyStrip v) =
        [Stmt.mk r prop (RdfObj.lit (strip_markup (pyStrip v)))]) := by
  refine ⟨?_, ?_, ?_, ?_⟩
  · unfold applyParam
    rw [hlook]
    generalize hR : pyStrip v = raw at hraw ⊢
    simp only [hraw, hprop, Bool.false_eq_true, if_false]
    rcases hkind with hk | hk <;>
      rw [hk] <;>
      simp only [Option.getD_some] <;>
      rw [if_neg hne, if_neg (by decide), if_neg (by decide), if_pos (by decide)]
  · exact fun t ht hk => wikilink_mem_cross _ _ _ _ _ t ht hk
  · exact fun l hl hn => wikilink_mem_lit _ _ _ _ _ l hl hn
  · exact fun h1 h2 => wikilink_fallback _ _ _ _ _ h1 h2

/-- C1 (witness): a concrete `auto`-kind field with value `[[Gondor]]`
produces the cross-reference statement for `Gondor`. -/
theorem c1_witness :
    Stmt.mk (("r").toList) (("p").toList) (RdfObj.iri (resource_uri (("Gondor").toList))) ∈
      wikilinkStmts (("r").toList) (("p").toList)
        (parse_value (pyStrip (("[[Gondor]]").toList))).1
        (parse_value (pyStrip (("[[Gondor]]").toList))).2 (pyStrip (("[[Gondor]]").toList)) :=
  (c1_amended (("r").toList) (("race").toList) (("[[Gondor]]").toList) (("p").toList)
      (FieldRule.mk (some (("p").toList)) (some (("auto").toList)))
      [((("race").toList), FieldRule.mk (some (("p").toList)) (some (("auto").toList)))]
      (by decide) (by decide) rfl (by decide) (Or.inl rfl)).2.1
    (("Gondor").toList) (by decide) (by decide)

/-- C2 (counterexample): for a field rule targeting the web-address
predicate, the raw value `see http://example.com/a b and more` yields one
statement whose object is `http://example.com/a` — the URL scan stops at
the space, so the claimed object `http://example.com/a%20b` is never
produced. -/
theorem c2_counterexample :
    applyParam (("r").toList) [((("website").toList), FieldRule.mk (some SCHEMA_url) none)]
        (("website").toList) (("see http://example.com/a b and more").toList) =
      Except.ok [Stmt.mk (("r").toList) SCHEMA_url (RdfObj.iri (("http://example.com/a").toList))] ∧
    ¬ (RdfObj.iri (("http://example.com/a").toList) =
        RdfObj.iri (("http://example.com/a%20b").toList)) := by
  decide

/-- C2 (amended): for a field rule whose target predicate is the
canonical web-address predicate, the mapper scans the raw value for
embedded scheme-prefixed URLs and emits one IRI statement per normalized
URL; `see http://example.com/a b and more` yields exactly one statement
with object `http://example.com/a` (the embedded-URL scan stops at
whitespace), `not a url` yields zero statements, and no plain-text
literal is ever emitted for this predicate. -/
theorem c2_amended :
    urlFieldStmts (("r").toList) SCHEMA_url (("see http://example.com/a b and more").toList) =
      [Stmt.mk (("r").toList) SCHEMA_url (RdfObj.iri (("http://example.com/a").toList))] ∧
    urlFieldStmts (("r").toList) SCHEMA_url (("not a url").toList) = [] ∧
    (∀ r prop raw : List Char, ∀ st ∈ urlFieldStmts r prop raw, ∃ u, st.obj = RdfObj.iri u) := by
  refine ⟨by decide, by decide, ?_⟩
  intro r prop raw st hst
  simp only [urlFieldStmts] at hst
  generalize he : extract_urls raw = urls at hst
  generalize hn : normalize_url raw = nres at hst
  split at hst
  · simp only [List.mem_filterMap] at hst
    obtain ⟨u, _, hmap⟩ := hst
    generalize hnu : normalize_url u = nres2 at hmap
    cases nres2 with
    | none => exact absurd hmap (by simp)
    | some nu =>
      simp only [Option.map_some'] at hmap
      cases hmap
      exact ⟨nu, rfl⟩
  · cases nres with
    | some nu =>
      simp only [List.mem_singleton] at hst
      cases hst
      exact ⟨nu, rfl⟩
    | none => exact absurd hst (by simp)

/-- C2 (witness): the universal no-literal part of the amended claim,
instantiated at the concrete single statement produced for
`see http://example.com/a b and more`. -/
theorem c2_witness :
    ∃ u, (Stmt.mk (("r").toList) SCHEMA_url (RdfObj.iri (("http://example.com/a").toList))).obj =
      RdfObj.iri u :=
  c2_amended.2.2 (("r").toList) SCHEMA_url (("see http://example.com/a b and more").toList)
    (Stmt.mk (("r").toList) SCHEMA_url (RdfObj.iri (("http://example.com/a").toList)))
    (by decide)

theorem applyTemplates_error (r : List Char) (mappings : List (List Char × TemplateSpec))
    (tmpls : List Template) (tmpl : Template) (hmem : tmpl ∈ tmpls)
    (herr : apply_infobox r tmpl mappings = Except.error ()) :
    applyTemplates r tmpls mappings = Except.error () := by
  induction tmpls with
  | nil => cases hmem
  | cons a as ih =>
    rcases List.mem_cons.mp hmem with rfl | hmem2
    · simp only [applyTemplates, herr]
    · simp only [applyTemplates]
      cases hA : apply_infobox r a mappings with
      | error e => cases e; rfl
      | ok s => rw [ih hmem2]

/-- C3 (counterexample): a mapping failure in one template invocation (a
field rule without a target predicate, raising `KeyError`) is not caught
at the invocation boundary: the whole page errors and the chunked driver
drops every statement of the page, including the core identity
statements, which are nonempty. -/
theorem c3_counterexample :
    apply_infobox (resource_uri (("Aragorn").toList))
        (Template.mk (("Infobox character").toList) [((("race").toList), (("Dunedain").toList))])
        [((("infobox character").toList),
          TemplateSpec.mk none none [((("race").toList), FieldRule.mk none (some (("auto").toList)))])] =
      Except.error () ∧
    build_kg_chunked
        [((("Aragorn").toList),
          PageCtx.mk [Template.mk (("Infobox character").toList) [((("race").toList), (("Dunedain").toList))]] [] [])]
        [(("Aragorn").toList)]
        [((("infobox character").toList),
          TemplateSpec.mk none none [((("race").toList), FieldRule.mk none (some (("auto").toList)))])]
        true = [] ∧
    ¬ (add_core_triples_stmts (("Aragorn").toList) = []) := by
  decide

/-- C3 (amended): the exception of a failing template invocation is
caught one level higher than the claim states — at the page boundary of
the chunked driver: an invocation failure aborts the whole page graph
(core identity, link and other invocations' statements included), the
failing page contributes nothing, and processing continues with the
remaining titles unaffected. -/
theorem c3_amended :
    (∀ (cache : List (List Char × PageCtx)) (t : List Char) (ts : List (List Char))
        (mappings : List (List Char × TemplateSpec)) (inc : Bool) (e : BuildErr),
        build_graph_for_title (cache.lookup t) t mappings inc = Except.error e →
        build_kg_chunked cache (t :: ts) mappings inc = build_kg_chunked cache ts mappings inc) ∧
    (∀ (ctx : PageCtx) (title : List Char) (mappings : List (List Char × TemplateSpec)) (tmpl : Template),
        tmpl ∈ find_mapped_templates ctx.templates mappings →
        apply_infobox (resource_uri title) tmpl mappings = Except.error () →
        build_graph_for_title (some ctx) title mappings true = Except.error BuildErr.mappingErr) := by
  constructor
  · intro cache t ts mappings inc e h
    simp only [build_kg_chunked, h, List.nil_append]
  · intro ctx title mappings tmpl hmem herr
    have hT := applyTemplates_error (resource_uri title) mappings
      (find_mapped_templates ctx.templates mappings) tmpl hmem herr
    simp only [build_graph_for_title, hT, if_true]

/-- C3 (witness): the page-boundary catch instantiated on a concrete
failing page — the failing title contributes nothing and the driver
continues as if the title were absent. -/
theorem c3_witness :
    build_kg_chunked
        [((("Aragorn").toList),
          PageCtx.mk [Template.mk (("Infobox character").toList) [((("race").toList), (("Dunedain").toList))]] [] [])]
        [(("Aragorn").toList)]
        [((("infobox character").toList),
          TemplateSpec.mk none none [((("race").toList), FieldRule.mk none (some (("auto").toList)))])]
        true =
      build_kg_chunked
        [((("Aragorn").toList),
          PageCtx.mk [Template.mk (("Infobox character").toList) [((("race").toList), (("Dunedain").toList))]] [] [])]
        []
        [((("infobox character").toList),
          TemplateSpec.mk none none [((("race").toList), FieldRule.mk none (some (("auto").toList)))])]
        true :=
  c3_amended.1 _ _ _ _ _ BuildErr.mappingErr (by decide)

theorem build_ok_decomp (title : List Char) (ctx : PageCtx) (mappings : List (List Char × TemplateSpec))
    (inc : Bool) (out : List Stmt)
    (h : build_graph_for_title (some ctx) title mappings inc = Except.ok out) :
    ∃ rest, out = add_core_triples_stmts title ++ rest ∧
      (ctx.links = [] → ctx.externallinks = [] →
        find_mapped_templates ctx.templates mappings = [] → rest = []) := by
  cases inc with
  | false =>
    simp only [build_graph_for_title, Bool.false_eq_true, if_false, Except.ok.injEq] at h
    refine ⟨(extract_links ctx.links).map
        (fun lt => Stmt.mk (resource_uri title) SCHEMA_relatedTo (RdfObj.iri (resource_uri lt))) ++
      ctx.externallinks.flatMap (externalStmts (page_uri title) (resource_uri title)), ?_, ?_⟩
    · rw [← h, List.append_assoc]
    · intro h1 h2 _
      rw [h1, h2]
      simp [extract_links]
  | true =>
    simp only [build_graph_for_title, if_true] at h
    cases hA : applyTemplates (resource_uri title) (find_mapped_templates ctx.templates mappings) mappings with
    | error e =>
      rw [hA] at h
      exact absurd h (by simp)
    | ok ib =>
      rw [hA] at h
      simp only [Except.ok.injEq] at h
      refine ⟨(extract_links ctx.links).map
          (fun lt => Stmt.mk (resource_uri title) SCHEMA_relatedTo (RdfObj.iri (resource_uri lt))) ++
        (ctx.externallinks.flatMap (externalStmts (page_uri title) (resource_uri title)) ++ ib), ?_, ?_⟩
      · rw [← h]
        simp [List.append_assoc]
      · intro h1 h2 h3
        rw [h3] at hA
        simp only [applyTemplates, Except.ok.injEq] at hA
        rw [h1, h2, ← hA]
        simp [extract_links]

/-- C7: whenever the assembler returns a statement set for a page, that
set contains the five unconditional core identity statements — document
`isAbout` entity, the canonical source-document URL on both identifiers,
and an English-tagged label with the verbatim page title on both
identifiers — and for a page with no internal links, no external links
and no mapped templates these are exactly the output. -/
theorem c7_theorem (title : List Char) (ctx : PageCtx) (mappings : List (List Char × TemplateSpec))
    (inc : Bool) (out : List Stmt)
    (h : build_graph_for_title (some ctx) title mappings inc = Except.ok out) :
    Stmt.mk (page_uri title) SCHEMA_about (RdfObj.iri (resource_uri title)) ∈ out ∧
    Stmt.mk (page_uri title) SCHEMA_url (RdfObj.iri (wiki_url title)) ∈ out ∧
    Stmt.mk (resource_uri title) SCHEMA_url (RdfObj.iri (wiki_url title)) ∈ out ∧
    Stmt.mk (resource_uri title) RDFS_label (RdfObj.langLit title (("en").toList)) ∈ out ∧
    Stmt.mk (page_uri title) RDFS_label (RdfObj.langLit title (("en").toList)) ∈ out ∧
    (ctx.links = [] → ctx.externallinks = [] →
      find_mapped_templates ctx.templates mappings = [] → out = add_core_triples_stmts title) := by
  obtain ⟨rest, hout, hrest⟩ := build_ok_decomp title ctx mappings inc out h
  subst hout
  refine ⟨?_, ?_, ?_, ?_, ?_, ?_⟩
  · exact List.mem_append_left _ (by simp [add_core_triples_stmts])
  · exact List.mem_append_left _ (by simp [add_core_triples_stmts])
  · exact List.mem_append_left _ (by simp [add_core_triples_stmts])
  · exact List.mem_append_left _ (by simp [add_core_triples_stmts])
  · exact List.mem_append_left _ (by simp [add_core_triples_stmts])
  · intro h1 h2 h3
    rw [hrest h1 h2 h3, List.append_nil]

/-- C7 (witness): a concrete page with one unmapped template and no
links produces exactly the five core statements. -/
theorem c7_witness :
    Stmt.mk (page_uri (("Elrond").toList)) SCHEMA_about (RdfObj.iri (resource_uri (("Elrond").toList))) ∈
      add_core_triples_stmts (("Elrond").toList) ∧
    Stmt.mk (page_uri (("Elrond").toList)) SCHEMA_url (RdfObj.iri (wiki_url (("Elrond").toList))) ∈
      add_core_triples_stmts (("Elrond").toList) ∧
    Stmt.mk (resource_uri (("Elrond").toList)) SCHEMA_url (RdfObj.iri (wiki_url (("Elrond").toList))) ∈
      add_core_triples_stmts (("Elrond").toList) ∧
    Stmt.mk (resource_uri (("Elrond").toList)) RDFS_label
        (RdfObj.langLit (("Elrond").toList) (("en").toList)) ∈
      add_core_triples_stmts (("Elrond").toList) ∧
    Stmt.mk (page_uri (("Elrond").toList)) RDFS_label
        (RdfObj.langLit (("Elrond").toList) (("en").toList)) ∈
      add_core_triples_stmts (("Elrond").toList) ∧
    (([] : List (List Char)) = [] → ([] : List (List Char)) = [] →
      find_mapped_templates [Template.mk (("Infobox unknown").toList) []] [] = [] →
      add_core_triples_stmts (("Elrond").toList) = add_core_triples_stmts (("Elrond").toList)) :=
  c7_theorem (("Elrond").toList)
    (PageCtx.mk [Template.mk (("Infobox unknown").toList) []] [] []) [] true
    (add_core_triples_stmts (("Elrond").toList)) (by decide)

/-- C8: for every external link string, exactly one statement is emitted
(external links are never dropped): an `owl:sameAs` statement from the
entity to the escaped reference when escaping succeeds and the
(lowercased) raw string contains the encyclopedia-cross-reference path
segment, else a document-level `schema:url` statement whose object is the
escaped IRI if escaping succeeded and a plain-text literal of the raw
string otherwise. -/
theorem c8_theorem (p r u : List Char) :
    (∀ s, safe_iri u = some s →
      hasSubstr (("wikipedia.org/wiki/").toList) (u.map lowerCh) = true →
      externalStmts p r u = [Stmt.mk r OWL_sameAs (RdfObj.iri s)]) ∧
    (∀ s, safe_iri u = some s →
      hasSubstr (("wikipedia.org/wiki/").toList) (u.map lowerCh) = false →
      externalStmts p r u = [Stmt.mk p SCHEMA_url (RdfObj.iri s)]) ∧
    (safe_iri u = none → externalStmts p r u = [Stmt.mk p SCHEMA_url (RdfObj.lit u)]) ∧
    (externalStmts p r u).length = 1 := by
  refine ⟨?_, ?_, ?_, ?_⟩
  · intro s hS hW
    simp only [externalStmts, hS]
    rw [hW]
    simp
  · intro s hS hW
    simp only [externalStmts, hS]
    rw [hW]
    simp
  · intro hS
    simp [externalStmts, hS]
  · cases hS : safe_iri u with
    | none => simp [externalStmts, hS]
    | some s =>
      simp only [externalStmts, hS]
      split <;> simp

/-- C8 (witness): a concrete Wikipedia external link produces exactly the
`owl:sameAs` statement to its escaped form. -/
theorem c8_witness :
    externalStmts (("p").toList) (("r").toList) (("https://en.wikipedia.org/wiki/Elrond").toList) =
      [Stmt.mk (("r").toList) OWL_sameAs (RdfObj.iri (("https://en.wikipedia.org/wiki/Elrond").toList))] :=
  (c8_theorem (("p").toList) (("r").toList) (("https://en.wikipedia.org/wiki/Elrond").toList)).1
    (("https://en.wikipedia.org/wiki/Elrond").toList) (by decide) (by decide)

/-- C9: in the `wikilink_or_literal` / `auto` branch, a linked title
whose lowercased form starts with a non-content namespace prefix is
silently dropped — the output holds only the statements of the remaining
titles and literal parts — and its presence keeps the linked list
non-empty, so the whole-value literal fallback stays suppressed: with no
other titles and no literal parts the field emits nothing at all. -/
theorem c9_theorem (r prop raw T : List Char) (linked lits : List (List Char))
    (hT : hasBadNs T = true) :
    wikilinkStmts r prop (T :: linked) lits raw =
      (linked.filter keepTitle).map (fun t => Stmt.mk r prop (RdfObj.iri (resource_uri t))) ++
      (lits.filter (fun l => !l.isEmpty)).map (fun l => Stmt.mk r prop (RdfObj.lit l)) ∧
    wikilinkStmts r prop [T] [] raw = [] := by
  constructor
  · simp [wikilinkStmts, keepTitle, hT]
  · simp [wikilinkStmts, keepTitle, hT]

/-- C9 (witness): the concrete classifier output for `[[Category:Foo]]`
(one namespace-prefixed linked title, no literal parts) yields zero
statements. -/
theorem c9_witness :
    wikilinkStmts (("r").toList) (("p").toList) [("Category:Foo").toList] [] (("[[Category:Foo]]").toList) = [] :=
  (c9_theorem (("r").toList) (("p").toList) (("[[Category:Foo]]").toList) (("Category:Foo").toList)
    [] [] (by decide)).2

/-- C6: the value classifier and the URL normalizer are total over string
input — `parse_value` always returns a pair of lists, and any parsing
exception raised inside the `try` block of the URL normalizer (an
`.error` of `safe_iri_body`, e.g. `urlsplit`'s `ValueError` on an
unbalanced bracket) is caught and converted to the null result. -/
theorem c6_theorem :
    (∀ s : List Char, ∃ linked lits, parse_value s = (linked, lits)) ∧
    (∀ (u : List Char) (e : Unit), safe_iri_body (pyStrip u) = Except.error e → safe_iri u = none) := by
  constructor
  · intro s
    exact ⟨(parse_value s).1, (parse_value s).2, Prod.mk.eta.symm⟩
  · intro u e h
    by_cases hE : (pyStrip u).isEmpty
    · simp [safe_iri, hE]
    · simp [safe_iri, hE, h]

/-- C6 (witness): the unbalanced-bracket URL `http://[x` makes `urlsplit`
raise; the exception is caught and `safe_iri` returns the null result. -/
theorem c6_witness : safe_iri (("http://[x").toList) = none :=
  c6_theorem.2 (("http://[x").toList) () (by decide)

theorem scanSub_none (m : List Char → Option (Nat × List Char)) :
    ∀ (f : Nat) (xs : List Char), (∀ c ∈ xs, ∀ rest, m (c :: rest) = none) → scanSub m f xs = xs
  | 0, xs, _ => rfl
  | _ + 1, [], _ => rfl
  | f + 1, c :: rest, h => by
    rw [scanSub, h c (List.mem_cons_self c rest) rest]
    rw [scanSub_none m f rest (fun d hd r => h d (List.mem_cons_of_mem c hd) r)]

theorem scanFind_none (m : List Char → Option (Nat × List Char)) :
    ∀ (f : Nat) (xs : List Char), (∀ c ∈ xs, ∀ rest, m (c :: rest) = none) → scanFind m f xs = []
  | 0, _, _ => rfl
  | _ + 1, [], _ => rfl
  | f + 1, c :: rest, h => by
    rw [scanFind, h c (List.mem_cons_self c rest) rest]
    exact scanFind_none m f rest (fun d hd r => h d (List.mem_cons_of_mem c hd) r)

theorem scanSplit_none (m : List Char → Option Nat) :
    ∀ (f : Nat) (acc xs : List Char), (∀ c ∈ xs, ∀ rest, m (c :: rest) = none) →
      scanSplit m f acc xs = [acc.reverse ++ xs]
  | 0, acc, xs, _ => rfl
  | _ + 1, acc, [], _ => by simp [scanSplit]
  | f + 1, acc, c :: rest, h => by
    rw [scanSplit, h c (List.mem_cons_self c rest) rest]
    rw [scanSplit_none m f (c :: acc) rest (fun d hd r => h d (List.mem_cons_of_mem c hd) r)]
    simp

theorem scanSub_cons_none (m : List Char → Option (Nat × List Char)) (f : Nat) (c : Char)
    (rest : List Char) (h : m (c :: rest) = none) :
    scanSub m (f + 1) (c :: rest) = c :: scanSub m f rest := by
  rw [scanSub, h]

theorem scanFind_cons_none (m : List Char → Option (Nat × List Char)) (f : Nat) (c : Char)
    (rest : List Char) (h : m (c :: rest) = none) :
    scanFind m (f + 1) (c :: rest) = scanFind m f rest := by
  rw [scanFind, h]

/-- Characters that can appear around a fragment wiki-link token without
touching any of the `strip_markup` / `parse_value` rewriting machinery:
ASCII alphanumerics plus the bracket characters and `#` of the token
itself. -/
def tameChar (c : Char) : Bool :=
  isAsciiAlphaNum c || (c == '[') || (c == ']') || (c == '#')

theorem tameChar_toNat {c : Char} (h : tameChar c = true) :
    (48 ≤ c.toNat ∧ c.toNat ≤ 57) ∨ (65 ≤ c.toNat ∧ c.toNat ≤ 90) ∨
      (97 ≤ c.toNat ∧ c.toNat ≤ 122) ∨ c.toNat = 91 ∨ c.toNat = 93 ∨ c.toNat = 35 := by
  simp only [tameChar, Bool.or_eq_true, beq_iff_eq] at h
  rcases h with ((h | h) | h) | h
  · simp only [isAsciiAlphaNum, isAsciiAlpha, isAsciiUpper, isAsciiLower, isAsciiDigit,
      Bool.or_eq_true, decide_eq_true_eq] at h
    omega
  · subst h; decide
  · subst h; decide
  · subst h; decide

theorem ne_of_bool_pred {p : Char → Bool} {c d : Char} (hc : p c = true) (hd : p d = false) :
    ¬ c = d := by
  intro e
  rw [e] at hc
  rw [hc] at hd
  exact Bool.noConfusion hd

theorem tame_not_ws {c : Char} (h : tameChar c = true) : isWSChar c = false := by
  have ht := tameChar_toNat h
  simp only [isWSChar, isHWSChar, Bool.or_eq_false_iff, decide_eq_false_iff_not]
  omega

theorem tame_not_hws {c : Char} (h : tameChar c = true) : isHWSChar c = false := by
  have ht := tameChar_toNat h
  simp only [isHWSChar, decide_eq_false_iff_not]
  omega

theorem tame_ciEq_angle {c : Char} (h : tameChar c = true) : ciEq (('<')) c = false := by
  have ht := tameChar_toNat h
  have hne : ¬ c = '<' := ne_of_bool_pred h (by decide)
  simp only [ciEq, isAsciiUpper, Bool.or_eq_false_iff]
  constructor
  · exact beq_eq_false_iff_ne.mpr hne
  · simp only [Bool.and_eq_false_iff]
    right
    have : ¬ (c.toNat + 32 = ('<').toNat) := by
      show ¬ (c.toNat + 32 = 60)
      omega
    exact beq_eq_false_iff_ne.mpr this

theorem refBlockM_none {c : Char} (h : tameChar c = true) (rest : List Char) :
    refBlockM (c :: rest) = none := by
  have hci := tame_ciEq_angle h
  rw [refBlockM, show (("<ref").toList) = ('<') :: (("ref").toList) from rfl]
  simp [startsWithCI, hci]

theorem refSelfM_none {c : Char} (h : tameChar c = true) (rest : List Char) :
    refSelfM (c :: rest) = none := by
  have hci := tame_ciEq_angle h
  rw [refSelfM, show (("<ref").toList) = ('<') :: (("ref").toList) from rfl]
  simp [startsWithCI, hci]

theorem brM_none {c : Char} (h : tameChar c = true) (rest : List Char) :
    brM (c :: rest) = none := by
  have hci := tame_ciEq_angle h
  rw [brM, show (("<br").toList) = ('<') :: (("br").toList) from rfl]
  simp [startsWithCI, hci]

theorem tagM_none {c : Char} (h : tameChar c = true) (rest : List Char) :
    tagM (c :: rest) = none := by
  have hne : ¬ c = '<' := ne_of_bool_pred h (by decide)
  simp [tagM, hne]

theorem hwsM_none {c : Char} (h : tameChar c = true) (rest : List Char) :
    hwsM (c :: rest) = none := by
  have hh := tame_not_hws h
  simp [hwsM, List.takeWhile_cons, hh]

theorem blankM_none {c : Char} (h : tameChar c = true) (rest : List Char) :
    blankM (c :: rest) = none := by
  have hne : ¬ c = '\n' := ne_of_bool_pred h (by decide)
  simp [blankM, hne]

theorem parenM_none {c : Char} (h : tameChar c = true) (rest : List Char) :
    parenM (c :: rest) = none := by
  have hne : ¬ c = '(' := ne_of_bool_pred h (by decide)
  simp [parenM, hne]

theorem splitM_none {c : Char} (h : tameChar c = true) (rest : List Char) :
    splitM (c :: rest) = none := by
  have h1 : ¬ c = '\n' := ne_of_bool_pred h (by decide)
  have h2 : ¬ c = ';' := ne_of_bool_pred h (by decide)
  have h3 : ¬ c = ',' := ne_of_bool_pred h (by decide)
  have hws := tame_not_ws h
  simp [splitM, List.takeWhile_cons, h1, h2, h3, hws]

theorem dropWhileCh_eq_self {p : Char → Bool} {l : List Char} (h : ∀ c ∈ l, p c = false) :
    l.dropWhile p = l := by
  cases l with
  | nil => rfl
  | cons c r => simp [List.dropWhile, h c (List.mem_cons_self c r)]

theorem pyStrip_eq_self {l : List Char} (h : ∀ c ∈ l, isWSChar c = false) : pyStrip l = l := by
  simp only [pyStrip]
  rw [dropWhileCh_eq_self h, dropWhileCh_eq_self (by intro c hc; exact h c (List.mem_reverse.mp hc))]
  exact List.reverse_reverse l

theorem reSub_tame_id {m : List Char → Option (Nat × List Char)} {l : List Char}
    (h : ∀ c ∈ l, tameChar c = true)
    (hm : ∀ c, tameChar c = true → ∀ rest, m (c :: rest) = none) : reSub m l = l :=
  scanSub_none m l.length l (fun c hc rest => hm c (h c hc) rest)

theorem strip_markup_tame_id {l : List Char} (h : ∀ c ∈ l, tameChar c = true) :
    strip_markup l = l := by
  have hws : ∀ c ∈ l, isWSChar c = false := fun c hc => tame_not_ws (h c hc)
  simp only [strip_markup]
  rw [pyStrip_eq_self hws]
  rw [reSub_tame_id h (fun c hc rest => refBlockM_none hc rest)]
  rw [reSub_tame_id h (fun c hc rest => refSelfM_none hc rest)]
  rw [reSub_tame_id h (fun c hc rest => brM_none hc rest)]
  rw [reSub_tame_id h (fun c hc rest => tagM_none hc rest)]
  rw [reSub_tame_id h (fun c hc rest => hwsM_none hc rest)]
  rw [reSub_tame_id h (fun c hc rest => blankM_none hc rest)]
  exact pyStrip_eq_self hws

theorem takeWhile_append_stop {p : Char → Bool} {t : List Char} (ht : ∀ c ∈ t, p c = true)
    {c : Char} (hc : p c = false) (rest : List Char) :
    (t ++ c :: rest).takeWhile p = t := by
  induction t with
  | nil => simp [List.takeWhile_cons, hc]
  | cons a t2 ih =>
    simp only [List.cons_append, List.takeWhile_cons, ht a (List.mem_cons_self a t2), if_true]
    rw [ih (fun d hd => ht d (List.mem_cons_of_mem a hd))]

theorem wikiM_none_head {c : Char} (h : ¬ c = '[') (rest : List Char) :
    wikiM (c :: rest) = none := by
  cases rest with
  | nil => rfl
  | cons c2 r => simp [wikiM, h]

theorem wikiM_fragment_none (t rest0 : List Char) (ht : ∀ c ∈ t, wlChar c = true) :
    wikiM (('[') :: ('[') :: (t ++ ('#') :: rest0)) = none := by
  by_cases hte : t.isEmpty
  · have : t = [] := by
      cases t with
      | nil => rfl
      | cons a b => simp at hte
    subst this
    simp [wikiM, List.takeWhile_cons, show wlChar (('#')) = false from (by decide)]
  · have h1 : (t ++ ('#') :: rest0).takeWhile wlChar = t :=
      takeWhile_append_stop ht (by decide) rest0
    have h2 : (t ++ ('#') :: rest0).drop t.length = ('#') :: rest0 := List.drop_left t _
    simp [wikiM, h1, h2, hte, startsWithCh]

theorem wikiM_second_none (t rest0 : List Char) (ht : ∀ c ∈ t, isAsciiAlphaNum c = true) :
    wikiM (('[') :: (t ++ ('#') :: rest0)) = none := by
  cases t with
  | nil => simp [wikiM, show ¬ ('#') = ('[') from (by decide)]
  | cons a t2 =>
    have hne : ¬ a = '[' := ne_of_bool_pred (ht a (List.mem_cons_self a t2)) (by decide)
    simp [wikiM, hne]

theorem alnum_tame {c : Char} (h : isAsciiAlphaNum c = true) : tameChar c = true := by
  simp [tameChar, h]

theorem alnum_wl {c : Char} (h : isAsciiAlphaNum c = true) : wlChar c = true := by
  have h1 : ¬ c = ']' := ne_of_bool_pred h (by decide)
  have h2 : ¬ c = '|' := ne_of_bool_pred h (by decide)
  have h3 : ¬ c = '#' := ne_of_bool_pred h (by decide)
  simp [wlChar, beq_eq_false_iff_ne.mpr h1, beq_eq_false_iff_ne.mpr h2, beq_eq_false_iff_ne.mpr h3]

theorem zs_tame {t s : List Char} (ht : ∀ c ∈ t, isAsciiAlphaNum c = true)
    (hs : ∀ c ∈ s, isAsciiAlphaNum c = true) :
    ∀ c ∈ (t ++ ('#') :: (s ++ [(']'), (']')])), tameChar c = true := by
  intro c hc
  rcases List.mem_append.mp hc with h | h
  · exact alnum_tame (ht c h)
  · rcases List.mem_cons.mp h with rfl | h2
    · decide
    · rcases List.mem_append.mp h2 with h3 | h3
      · exact alnum_tame (hs c h3)
      · rcases List.mem_cons.mp h3 with rfl | h4
        · decide
        · rcases List.mem_cons.mp h4 with rfl | h5
          · decide
          · cases h5

theorem zs_not_bracket {t s : List Char} (ht : ∀ c ∈ t, isAsciiAlphaNum c = true)
    (hs : ∀ c ∈ s, isAsciiAlphaNum c = true) :
    ∀ c ∈ (t ++ ('#') :: (s ++ [(']'), (']')])), ¬ c = '[' := by
  intro c hc
  rcases List.mem_append.mp hc with h | h
  · exact ne_of_bool_pred (ht c h) (by decide)
  · rcases List.mem_cons.mp h with rfl | h2
    · decide
    · rcases List.mem_append.mp h2 with h3 | h3
      · exact ne_of_bool_pred (hs c h3) (by decide)
      · rcases List.mem_cons.mp h3 with rfl | h4
        · decide
        · rcases List.mem_cons.mp h4 with rfl | h5
          · decide
          · cases h5

theorem parse_value_tame_single (x : List Char) (hx : ∀ c ∈ x, tameChar c = true)
    (hfind : reFindall wikiM x = []) (hsub : reSub wikiSubM x = x) (hne : x.isEmpty = false) :
    parse_value x = ([], [x]) := by
  have h2 := strip_markup_tame_id hx
  have h4 : reSub parenM x = x := reSub_tame_id hx (fun c hc rest => parenM_none hc rest)
  have h5 : pyStrip x = x := pyStrip_eq_self (fun c hc => tame_not_ws (hx c hc))
  have h6 : split_listish x = [x] := by
    simp only [split_listish]
    rw [h2]
    have hsplit : reSplit splitM x = [x] := by
      simp only [reSplit]
      rw [scanSplit_none splitM x.length [] x (fun c hc rest => splitM_none (hx c hc) rest)]
      simp
    rw [hsplit]
    simp [h5, hne]
  simp only [parse_value, extract_wikilinks]
  rw [hfind, h2, hsub, h4, h5, h6]
  simp [hne]

/-- C10: a double-bracket token whose target segment contains `#` (a
fragment reference `[[Target#Section]]`, with target and section over
plain alphanumeric characters) is never extracted as a linked title: the
classifier returns no linked titles and the token's text survives intact
as the single literal part. -/
theorem c10_theorem (t s : List Char) (ht : t.all isAsciiAlphaNum = true)
    (hs : s.all isAsciiAlphaNum = true) :
    extract_wikilinks (('[') :: ('[') :: (t ++ ('#') :: (s ++ [(']'), (']')]))) = [] ∧
    parse_value (('[') :: ('[') :: (t ++ ('#') :: (s ++ [(']'), (']')]))) =
      ([], [('[') :: ('[') :: (t ++ ('#') :: (s ++ [(']'), (']')]))]) := by
  have ht' : ∀ c ∈ t, isAsciiAlphaNum c = true := List.all_eq_true.mp ht
  have hs' : ∀ c ∈ s, isAsciiAlphaNum c = true := List.all_eq_true.mp hs
  have hzs := zs_tame ht' hs'
  have hnb := zs_not_bracket ht' hs'
  have hxmem : ∀ c ∈ (('[') :: ('[') :: (t ++ ('#') :: (s ++ [(']'), (']')]))), tameChar c = true := by
    intro c hc
    rcases List.mem_cons.mp hc with rfl | hc2
    · decide
    · rcases List.mem_cons.mp hc2 with rfl | hc3
      · decide
      · exact hzs c hc3
  have hfrag : wikiM (('[') :: ('[') :: (t ++ ('#') :: (s ++ [(']'), (']')]))) = none :=
    wikiM_fragment_none t (s ++ [(']'), (']')]) (fun c hc => alnum_wl (ht' c hc))
  have hsecond : wikiM (('[') :: (t ++ ('#') :: (s ++ [(']'), (']')]))) = none :=
    wikiM_second_none t (s ++ [(']'), (']')]) ht'
  have hfind : reFindall wikiM (('[') :: ('[') :: (t ++ ('#') :: (s ++ [(']'), (']')]))) = [] := by
    simp only [reFindall, List.length_cons]
    rw [scanFind_cons_none _ _ _ _ hfrag, scanFind_cons_none _ _ _ _ hsecond]
    exact scanFind_none _ _ _ (fun c hc rest => wikiM_none_head (hnb c hc) rest)
  have hsub : reSub wikiSubM (('[') :: ('[') :: (t ++ ('#') :: (s ++ [(']'), (']')]))) =
      (('[') :: ('[') :: (t ++ ('#') :: (s ++ [(']'), (']')]))) := by
    simp only [reSub, List.length_cons]
    rw [scanSub_cons_none _ _ _ _ (by simp [wikiSubM, hfrag]),
      scanSub_cons_none _ _ _ _ (by simp [wikiSubM, hsecond])]
    rw [scanSub_none _ _ _ (fun c hc rest => by simp [wikiSubM, wikiM_none_head (hnb c hc) rest])]
  constructor
  · simp [extract_wikilinks, hfind]
  · exact parse_value_tame_single _ hxmem hfind hsub rfl

/-- C10 (witness): the concrete fragment reference `[[Target#Section]]`
is not extracted as a link and survives whole as the literal part. -/
theorem c10_witness :
    extract_wikilinks (('[') :: ('[') :: ((("Target").toList) ++ ('#') :: ((("Section").toList) ++ [(']'), (']')]))) = [] ∧
    parse_value (('[') :: ('[') :: ((("Target").toList) ++ ('#') :: ((("Section").toList) ++ [(']'), (']')]))) =
      ([], [('[') :: ('[') :: ((("Target").toList) ++ ('#') :: ((("Section").toList) ++ [(']'), (']')]))]) :=
  c10_theorem (("Target").toList) (("Section").toList) (by decide) (by decide)
